import Mathlib

/-!
# Verification of the OpenSlides media service core

A shallow embedding of `src/mediaserver.py` (a small Flask media server) and
proofs of the specified properties of its two operations:

* `serve`  — `GET /system/media/get/<mediafile_id>`: strips content headers,
  consults the authorization delegate, looks the blob up in the store, and
  streams it back in fixed-size chunks;
* `upload` — `POST /internal/media/upload`: three-stage validation of a JSON
  payload (`json.loads`, base64-decode of the `file` field, coercion of `id`
  and lookup of `mimetype`) followed by a store write.

Bytes are modelled as natural numbers below 256 in lists; Python dictionaries
produced by `json.loads` are modelled by the inductive `Json`; the blob store
(module `database`, not part of the sources) and the delegate call (module
`auth`) are modelled from the spec, as marked on their definitions.
-/

/-! ## Strings: substring search (Python's `"content" in key`) -/

/-- `startsWithChars p l` is Python's `l.startswith(p)` on character lists. -/
def startsWithChars : List Char → List Char → Bool
  | [], _ => true
  | _ :: _, [] => false
  | p :: ps, c :: cs => p = c && startsWithChars ps cs

/-- `containsSub p l` is Python's substring test `p in l` on character lists. -/
def containsSub (pat : List Char) : List Char → Bool
  | [] => startsWithChars pat []
  | c :: cs => startsWithChars pat (c :: cs) || containsSub pat cs

/-- The characters of the literal `"content"` from `mediaserver.serve`. -/
def contentChars : List Char := "content".toList

/-! ## JSON values (results of `json.loads`)

Python's `json.loads` is an external library call; its possible results are
modelled by this inductive.  JSON numbers are modelled exactly as rationals
(covering both ints and the floats relevant to `int(...)` truncation). -/

inductive Json where
  | null : Json
  | bool (b : Bool) : Json
  | num (q : Rat) : Json
  | str (s : String) : Json
  | arr (xs : List Json) : Json
  | obj (kvs : List (String × Json)) : Json

/-- Lookup in a parsed JSON object, last binding wins (as in the Python dict
built by `json.loads`); `none` when the key is absent or the value is not an
object (Python raises `KeyError`/`TypeError`, caught by the `try` blocks). -/
def getField : Json → String → Option Json
  | Json.obj kvs, k => kvs.foldl (fun acc kv => if kv.1 = k then some kv.2 else acc) none
  | _, _ => none

/-! ## Errors and the error envelope

`Modelled from the spec:` the exception classes live in `exceptions.py`, which
is not among the sources.  Per spec §7 / §6, `NotFoundError` carries status
404 and a fixed message, `BadRequestError` carries status 400 and the message
given at the raise site. -/

inductive Err where
  | notFound : Err
  | badRequest (msg : String) : Err

/-- Modelled from the spec: `HttpError.status_code` (`exceptions.py` is not in
the sources): 404 for not-found, 400 for bad-request. -/
def Err.status_code : Err → Nat
  | Err.notFound => 404
  | Err.badRequest _ => 400

/-- Modelled from the spec: `HttpError.message` (`exceptions.py` is not in the
sources): a fixed not-found reason, and the raise-site message for 400s. -/
def Err.message : Err → String
  | Err.notFound => "Not found."
  | Err.badRequest m => m

/-- A rendered error response: JSON body plus HTTP status code. -/
structure ErrResponse where
  body : Json
  status_code : Nat

/-- The `@app.errorhandler(HttpError)` view `handle_view_error`: renders any
typed failure as `{"success": False, "message": error.message}` with
`error.status_code` as the HTTP status. -/
def handle_view_error (error : Err) : ErrResponse :=
  { body := Json.obj [("success", Json.bool false), ("message", Json.str error.message)],
    status_code := error.status_code }

/-! ## The blob store -/

/-- Modelled from the spec: the `Database` class (`database.py` is not in the
sources), a key-value store from media id to (bytes, mimetype).  The mimetype
slot holds whatever JSON value `upload` passed in (Python is untyped here). -/
def Store : Type := Int → Option (List Nat × Json)

/-- Modelled from the spec: `database.get_mediafile(id)`; `none` models the
`NotFoundError` raised when no blob exists for `id` (spec §4.2). -/
def get_mediafile (db : Store) (id : Int) : Option (List Nat × Json) := db id

/-- Modelled from the spec: `database.set_mediafile(id, bytes, mimetype)`;
overwrites any existing blob for `id` (spec §4.2, upsert semantics). -/
def set_mediafile (db : Store) (id : Int) (media : List Nat) (mimetype : Json) : Store :=
  fun j => if j = id then some (media, mimetype) else db j

/-! ## Header filtering (`serve`, lines 49–53) -/

/-- Request headers as a name/value association list (a Python dict). -/
def Headers : Type := List (String × String)

/-- `del_keys = [key for key in presenter_headers if "content" in key]`. -/
def del_keys (headers : Headers) : List String :=
  (headers.map Prod.fst).filter (fun key => containsSub contentChars key.toList)

/-- The deletion loop `for key in del_keys: del presenter_headers[key]`. -/
def delAll (headers : Headers) (keys : List String) : Headers :=
  keys.foldl (fun hs k => hs.filter (fun kv => kv.1 ≠ k)) headers

/-- The headers forwarded to the delegate: the inbound headers with every key
containing the substring `"content"` deleted (`serve`, lines 49–53). -/
def presenter_headers (headers : Headers) : Headers :=
  delAll headers (del_keys headers)

/-! ## The authorization delegate -/

/-- Modelled from the spec: the result of `check_mediafile_id` (`auth.py` is
not in the sources): spec §4.1, a tuple of (allowed, display filename,
optional opaque forwarded credential). -/
structure AuthResult where
  ok : Bool
  filename : String
  auth_header : Option String

/-! ## Chunking (`serve`, inner function `chunked`) -/

/-- `def chunked(size, source): for i in range(0, len(source), size): yield
bytes(source[i : i + size])` — the fixed-size chunking generator,
materialised as the (finite) list of emitted chunks.  `size = 0` (on which
Python's `range` raises) is mapped to no chunks. -/
def chunked (size : Nat) (source : List Nat) : List (List Nat) :=
  if h1 : size = 0 then []
  else if h2 : source = [] then []
  else source.take size :: chunked size (source.drop size)
termination_by source.length
decreasing_by
  simp only [List.length_drop]
  have hpos : 0 < source.length := List.length_pos.mpr h2
  omega

/-! ## The retrieval view `serve` -/

/-- A successful media response: the chunk stream, the `mimetype=` argument of
`Response`, the `Content-Disposition` header, and the value of the
credential-forwarding header `AUTH_HEADER` when it was set. -/
structure ServeResponse where
  chunks : List (List Nat)
  mimetype : Json
  content_disposition : String
  auth_header : Option String

/-- The view `serve(mediafile_id)` (lines 45–74): filter headers, call
`check_mediafile_id`, raise `NotFoundError` when not ok, query the store
(whose miss raises `NotFoundError`), and build the chunked response.  The
delegate call and the store are passed as parameters; the store is returned
unchanged alongside the outcome to make the read-only frame explicit.
`if auth_header:` is Python truthiness: `None` and `""` both skip the header. -/
def serve (check : Int → Headers → AuthResult) (db : Store) (block_size : Nat)
    (mediafile_id : Int) (headers : Headers) : Except Err ServeResponse × Store :=
  let ph := presenter_headers headers
  let r := check mediafile_id ph
  if r.ok then
    match get_mediafile db mediafile_id with
    | none => (Except.error Err.notFound, db)
    | some (data, mimetype) =>
      (Except.ok
        { chunks := chunked block_size data
          mimetype := mimetype
          content_disposition := "inline; filename=\"" ++ r.filename ++ "\""
          auth_header :=
            match r.auth_header with
            | some s => if s = "" then none else some s
            | none => none },
        db)
  else (Except.error Err.notFound, db)

/-! ## Base64 (`base64.b64decode(dejson["file"].encode())`)

Python's `base64` module is an external library; the decoder below translates
CPython's non-strict `binascii.a2b_base64` loop: bytes outside the alphabet
(whitespace included) are skipped, `=` is ignored except where it validly
terminates the data, and `binascii.Error` ("Incorrect padding") is raised
exactly when bits are left over at the end. -/

/-- The standard base64 alphabet. -/
def b64chars : List Char :=
  "ABCDEFGHIJKLMNOPQRSTUVWXYZabcdefghijklmnopqrstuvwxyz0123456789+/".toList

/-- The character encoding a 6-bit group. -/
def enc6 (n : Nat) : Char := b64chars.getD n 'A'

/-- Index-tracking lookup in the alphabet. -/
def dec6At : List Char → Nat → Char → Option Nat
  | [], _, _ => none
  | a :: as, i, c => if a = c then some i else dec6At as (i + 1) c

/-- The 6-bit group encoded by a character, `none` off the alphabet. -/
def dec6 (c : Char) : Option Nat := dec6At b64chars 0 c

/-- base64-encode a byte list (3 bytes → 4 characters, `=`-padded tail). -/
def b64encodeL : List Nat → List Char
  | b1 :: b2 :: b3 :: rest =>
    enc6 (b1 / 4) :: enc6 (b1 % 4 * 16 + b2 / 16) :: enc6 (b2 % 16 * 4 + b3 / 64) ::
      enc6 (b3 % 64) :: b64encodeL rest
  | [b1, b2] => [enc6 (b1 / 4), enc6 (b1 % 4 * 16 + b2 / 16), enc6 (b2 % 16 * 4), '=']
  | [b1] => [enc6 (b1 / 4), enc6 (b1 % 4 * 16), '=', '=']
  | [] => []

/-- CPython's `binascii_find_valid`: the next character that is either in the
alphabet or the pad (used for the lookahead deciding whether a `=` at quad
position 2 terminates the data). -/
def findValid : List Char → Option Char
  | [] => none
  | c :: rest => if (dec6 c).isSome || c = '=' then some c else findValid rest

/-- The character loop of CPython's non-strict `binascii.a2b_base64`: state is
(quad position, pending bit count, pending bits).  Characters outside the
alphabet are skipped; a `=` is ignored when fewer than two data characters of
the current quad were seen (or, at two, when the next valid character is not
another `=`), and otherwise ends the data; each time eight bits are pending a
byte is emitted.  `none` is the `binascii.Error` ("Incorrect padding") raised
when bits are left pending at the end of input. -/
def b64decodeLoop : List Char → Nat → Nat → Nat → Option (List Nat)
  | [], _, leftbits, _ => if leftbits = 0 then some [] else none
  | c :: rest, quad_pos, leftbits, leftchar =>
    if c = '=' then
      if quad_pos < 2 then b64decodeLoop rest quad_pos leftbits leftchar
      else if quad_pos = 2 then
        if findValid rest = some '=' then some []
        else b64decodeLoop rest quad_pos leftbits leftchar
      else some []
    else
      match dec6 c with
      | none => b64decodeLoop rest quad_pos leftbits leftchar
      | some v =>
        if leftbits + 6 ≥ 8 then
          Option.map
            (fun tl => (leftchar * 64 + v) / 2 ^ (leftbits + 6 - 8) % 256 :: tl)
            (b64decodeLoop rest ((quad_pos + 1) % 4) (leftbits + 6 - 8)
              ((leftchar * 64 + v) % 2 ^ (leftbits + 6 - 8)))
        else
          b64decodeLoop rest ((quad_pos + 1) % 4) (leftbits + 6) (leftchar * 64 + v)

/-- base64-decode a character list (the loop started in its initial state);
`none` models the `binascii.Error` on malformed input. -/
def b64decodeL (l : List Char) : Option (List Nat) := b64decodeLoop l 0 0 0

/-- `base64.b64encode` on strings. -/
def b64encode (media : List Nat) : String := String.mk (b64encodeL media)

/-- `base64.b64decode` on strings. -/
def b64decode (s : String) : Option (List Nat) := b64decodeL s.toList

/-! ## Python `int(...)` coercion (`int(dejson["id"])`) -/

/-- The ASCII whitespace Python's `int(str)` strips from both ends (space,
tab, newline, carriage return, vertical tab, form feed). -/
def isPySpace (c : Char) : Bool :=
  c = ' ' || c = '\t' || c = '\n' || c = '\r' || c = '\x0b' || c = '\x0c'

/-- Continuation of the digit scan: further digits, with a single underscore
allowed between two digits (Python's grouping rule: `1_0` is 10, while
`1_`, `_1` and `1__0` raise). -/
def pyIntDigitsGo : Nat → List Char → Option Nat
  | acc, [] => some acc
  | acc, '_' :: rest =>
    match rest with
    | d :: rest2 =>
      if d.isDigit then pyIntDigitsGo (acc * 10 + (d.toNat - 48)) rest2 else none
    | [] => none
  | acc, d :: rest =>
    if d.isDigit then pyIntDigitsGo (acc * 10 + (d.toNat - 48)) rest else none

/-- The value of a character list that is decimal digits with underscore
grouping (must start with a digit), `none` otherwise. -/
def parseDigits : List Char → Option Nat
  | [] => none
  | d :: rest => if d.isDigit then pyIntDigitsGo (d.toNat - 48) rest else none

/-- Python `int(s)` on a string: surrounding whitespace stripped, optional
sign, base-10 digits with underscore grouping.  Covers the ASCII domain;
CPython additionally accepts Unicode space classes and non-ASCII decimal
digits, which are outside this model. -/
def pyIntOfStr (s : String) : Option Int :=
  let l := ((s.toList.dropWhile isPySpace).reverse.dropWhile isPySpace).reverse
  match l with
  | '-' :: rest => (parseDigits rest).map (fun n => -(n : Int))
  | '+' :: rest => (parseDigits rest).map (fun n => (n : Int))
  | _ => (parseDigits l).map (fun n => (n : Int))

/-- Truncation toward zero, as Python `int(float)`. -/
def ratTrunc (q : Rat) : Int := if 0 ≤ q then ⌊q⌋ else ⌈q⌉

/-- Python `int(...)` applied to a JSON value: numbers truncate toward zero,
strings parse as decimal integers, booleans are 1/0 (Python `bool <: int`);
everything else raises (`none`). -/
def pyInt : Json → Option Int
  | Json.num q => some (ratTrunc q)
  | Json.str s => pyIntOfStr s
  | Json.bool b => some (if b then 1 else 0)
  | _ => none

/-- The domain on which `pyInt`'s failure side coincides with CPython's
`int(...)`: numeric strings of ASCII characters (CPython additionally accepts
some non-ASCII digit and space characters, outside the model); every other
JSON value is decided exactly. -/
def pyIntModelled : Json → Bool
  | Json.str s => s.toList.all (fun c => c.toNat < 128)
  | _ => true

/-! ## The upload view and the bytes `repr` of the payload -/

/-- A single quote character (for the `repr` of a Python bytes object). -/
def sqChar : Char := Char.ofNat 39

/-- The quote Python's bytes `repr` picks: a single quote, unless the content
holds a single quote and no double quote. -/
def bytesReprQuote (l : List Char) : Char :=
  if l.any (fun c => c = sqChar) && !l.any (fun c => c = '"') then '"' else sqChar

/-- Lower-case hexadecimal digit. -/
def hexDigit (n : Nat) : Char :=
  if n < 10 then Char.ofNat (48 + n) else Char.ofNat (87 + n)

/-- The UTF-8 bytes of a character (how a non-ASCII payload character appears
in `request.data`). -/
def utf8Bytes (c : Char) : List Nat :=
  let n := c.toNat
  if n < 0x80 then [n]
  else if n < 0x800 then [0xC0 + n / 0x40, 0x80 + n % 0x40]
  else if n < 0x10000 then
    [0xE0 + n / 0x1000, 0x80 + n / 0x40 % 0x40, 0x80 + n % 0x40]
  else
    [0xF0 + n / 0x40000, 0x80 + n / 0x1000 % 0x40, 0x80 + n / 0x40 % 0x40,
      0x80 + n % 0x40]

/-- One payload character as Python's bytes `repr` renders it: backslash,
tab, newline, carriage return, and the chosen quote get backslash escapes;
other printable ASCII stands verbatim; everything else becomes `\xhh` escapes
of its UTF-8 bytes. -/
def pyEscapeChar (quote : Char) (c : Char) : List Char :=
  if c = '\\' then ['\\', '\\']
  else if c = '\t' then ['\\', 't']
  else if c = '\n' then ['\\', 'n']
  else if c = '\r' then ['\\', 'r']
  else if c = quote then ['\\', quote]
  else if 0x20 ≤ c.toNat ∧ c.toNat ≤ 0x7e then [c]
  else (utf8Bytes c).flatMap (fun b => ['\\', 'x', hexDigit (b / 16), hexDigit (b % 16)])

/-- `repr` of the payload bytes: `b` plus the quoted, escaped content. -/
def pyBytesRepr (raw : String) : String :=
  let l := raw.toList
  let q := bytesReprQuote l
  String.mk ('b' :: q :: (l.flatMap (pyEscapeChar q) ++ [q]))

/-- The f-string `f"The post request.data is not in right format:
{request.data}"`: formatting the bytes object `request.data` embeds its
`repr`, not the raw payload. -/
def wrong_format_message (raw : String) : String :=
  "The post request.data is not in right format: " ++ pyBytesRepr raw

/-- The view `upload()` (lines 76–100).  `raw` is the request body
`request.data` (as text) and `parsed` the outcome of `json.loads` on it
(`none`: parse failure — stage 1).  Stage 2 takes `dejson["file"]` (any
lookup failure or non-string is caught by the same `try`) and base64-decodes
it; stage 3 coerces `dejson["id"]` with `int` and looks up
`dejson["mimetype"]`.  On success the blob is written to the store and
`({"success": True}, 200)` returned.  The store is threaded explicitly. -/
def upload (raw : String) (parsed : Option Json) (db : Store) :
    Except Err (Json × Nat) × Store :=
  match parsed with
  | none => (Except.error (Err.badRequest "request.data is not json"), db)
  | some dejson =>
    match getField dejson "file" with
    | some (Json.str s) =>
      match b64decode s with
      | none => (Except.error (Err.badRequest "cannot decode base64 file"), db)
      | some media =>
        match getField dejson "id" with
        | none => (Except.error (Err.badRequest (wrong_format_message raw)), db)
        | some idv =>
          match pyInt idv with
          | none => (Except.error (Err.badRequest (wrong_format_message raw)), db)
          | some media_id =>
            match getField dejson "mimetype" with
            | none => (Except.error (Err.badRequest (wrong_format_message raw)), db)
            | some mimetype =>
              (Except.ok (Json.obj [("success", Json.bool true)], 200),
                set_mediafile db media_id media mimetype)
    | _ => (Except.error (Err.badRequest "cannot decode base64 file"), db)

/-! ## Properties of chunking -/

/-- Concatenating the emitted chunks, in emission order, restores the source. -/
theorem chunked_flatten (size : Nat) (h : 0 < size) (source : List Nat) :
    (chunked size source).flatten = source := by
  generalize hn : source.length = n
  induction n using Nat.strong_induction_on generalizing source with
  | _ n ih =>
    rw [chunked]
    split
    · omega
    · split
      · simp [*]
      · rename_i hsz hne
        have hlt : (source.drop size).length < n := by
          have hpos : 0 < source.length := List.length_pos.mpr hne
          simp only [List.length_drop]
          omega
        simp only [List.flatten_cons]
        rw [ih _ hlt _ rfl]
        exact List.take_append_drop size source

/-- Every emitted chunk has length at most the chunk size. -/
theorem chunked_length_le (size : Nat) (source : List Nat) :
    ∀ c ∈ chunked size source, c.length ≤ size := by
  generalize hn : source.length = n
  induction n using Nat.strong_induction_on generalizing source with
  | _ n ih =>
    rw [chunked]
    split
    · simp
    · split
      · simp
      · rename_i hsz hne
        intro c hc
        rcases List.mem_cons.mp hc with hc | hc
        · subst hc
          simp only [List.length_take]
          omega
        · have hpos : 0 < source.length := List.length_pos.mpr hne
          have hlt : (source.drop size).length < n := by
            simp only [List.length_drop]; omega
          exact ih _ hlt _ rfl c hc

/-! ## Properties of the header filter -/

/-- The deletion loop deletes exactly the entries whose name is in `keys`. -/
theorem delAll_eq_filter (keys : List String) (hs : Headers) :
    delAll hs keys = hs.filter (fun kv => keys.all (fun k => kv.1 ≠ k)) := by
  induction keys generalizing hs with
  | nil => simp [delAll]
  | cons k ks ih =>
    show delAll (hs.filter fun kv => kv.1 ≠ k) ks = _
    rw [ih, List.filter_filter]
    apply List.filter_congr
    intro kv _
    simp [List.all_cons, Bool.and_comm]

/-- Membership in `del_keys`. -/
theorem mem_del_keys (hs : Headers) (k : String) :
    k ∈ del_keys hs ↔ k ∈ hs.map Prod.fst ∧ containsSub contentChars k.toList = true := by
  simp [del_keys, List.mem_filter]

/-- The forwarded header set is the inbound set restricted to names not
containing the (lower-case, exact) substring `"content"`. -/
theorem presenter_headers_eq_filter (hs : Headers) :
    presenter_headers hs = hs.filter (fun kv => !containsSub contentChars kv.1.toList) := by
  rw [presenter_headers, delAll_eq_filter]
  apply List.filter_congr
  intro kv hkv
  by_cases hc : containsSub contentChars kv.1.toList = true
  · simp only [hc, Bool.not_true]
    rw [List.all_eq_false]
    refine ⟨kv.1, ?_, by simp⟩
    exact (mem_del_keys hs kv.1).mpr ⟨List.mem_map_of_mem Prod.fst hkv, hc⟩
  · simp only [hc, Bool.not_false]
    rw [List.all_eq_true]
    intro k hk
    have := ((mem_del_keys hs k).mp hk).2
    simp only [decide_eq_true_eq]
    intro hek
    exact hc (hek ▸ this)

/-! ## Properties of base64 -/

/-- Decoding inverts encoding on every 6-bit group. -/
theorem dec6_enc6 : ∀ n, n < 64 → dec6 (enc6 n) = some n := by decide

/-- No alphabet character is the padding character. -/
theorem enc6_ne_pad : ∀ n, n < 64 → ¬enc6 n = '=' := by decide

/-- Induction on a list in steps of three (the shape of base64 encoding). -/
theorem list3_ind {P : List Nat → Prop} (h0 : P []) (h1 : ∀ a, P [a])
    (h2 : ∀ a b, P [a, b]) (h3 : ∀ a b c l, P l → P (a :: b :: c :: l)) :
    ∀ l, P l
  | [] => h0
  | [a] => h1 a
  | [a, b] => h2 a b
  | a :: b :: c :: l => h3 a b c l (list3_ind h0 h1 h2 h3 l)

/-- An alphabet character always advances the loop as one data character. -/
theorem b64decodeLoop_data (w : Nat) (hw : w < 64) (rest : List Char)
    (quad_pos leftbits leftchar : Nat) :
    b64decodeLoop (enc6 w :: rest) quad_pos leftbits leftchar =
      if leftbits + 6 ≥ 8 then
        Option.map
          (fun tl => (leftchar * 64 + w) / 2 ^ (leftbits + 6 - 8) % 256 :: tl)
          (b64decodeLoop rest ((quad_pos + 1) % 4) (leftbits + 6 - 8)
            ((leftchar * 64 + w) % 2 ^ (leftbits + 6 - 8)))
      else
        b64decodeLoop rest ((quad_pos + 1) % 4) (leftbits + 6) (leftchar * 64 + w) := by
  rw [b64decodeLoop, if_neg (enc6_ne_pad w hw), dec6_enc6 w hw]

/-- A full alphabet quad decodes to its three bytes and leaves a fresh state. -/
theorem b64decodeLoop_quad (w1 w2 w3 w4 : Nat) (rest : List Char)
    (h1 : w1 < 64) (h2 : w2 < 64) (h3 : w3 < 64) (h4 : w4 < 64) :
    b64decodeLoop (enc6 w1 :: enc6 w2 :: enc6 w3 :: enc6 w4 :: rest) 0 0 0 =
      Option.map
        (fun tl => (w1 * 4 + w2 / 16) :: (w2 % 16 * 16 + w3 / 4) ::
          (w3 % 4 * 64 + w4) :: tl)
        (b64decodeLoop rest 0 0 0) := by
  rw [b64decodeLoop_data w1 h1, if_neg (by omega)]
  rw [b64decodeLoop_data w2 h2, if_pos (by omega)]
  rw [b64decodeLoop_data w3 h3, if_pos (by omega)]
  rw [b64decodeLoop_data w4 h4, if_pos (by omega)]
  norm_num [Option.map_map, Nat.mod_one]
  congr 1
  funext tl
  simp only [Function.comp_apply, List.cons.injEq]
  refine ⟨by omega, by omega, by omega, trivial⟩

/-- A final two-character group with double padding decodes to its byte. -/
theorem b64decodeLoop_two_pad (w1 w2 : Nat) (h1 : w1 < 64) (h2 : w2 < 64) :
    b64decodeLoop [enc6 w1, enc6 w2, '=', '='] 0 0 0 =
      some [w1 * 4 + w2 / 16] := by
  rw [b64decodeLoop_data w1 h1, if_neg (by omega)]
  rw [b64decodeLoop_data w2 h2, if_pos (by omega)]
  norm_num
  constructor
  · simp [b64decodeLoop, findValid]
  · omega

/-- A final three-character group with one pad decodes to its two bytes. -/
theorem b64decodeLoop_one_pad (w1 w2 w3 : Nat)
    (h1 : w1 < 64) (h2 : w2 < 64) (h3 : w3 < 64) :
    b64decodeLoop [enc6 w1, enc6 w2, enc6 w3, '='] 0 0 0 =
      some [w1 * 4 + w2 / 16, w2 % 16 * 16 + w3 / 4] := by
  rw [b64decodeLoop_data w1 h1, if_neg (by omega)]
  rw [b64decodeLoop_data w2 h2, if_pos (by omega)]
  rw [b64decodeLoop_data w3 h3, if_pos (by omega)]
  norm_num [Option.map_map]
  rw [b64decodeLoop]
  norm_num
  constructor
  · omega
  · omega

/-- base64 decoding inverts encoding on any byte list. -/
theorem b64_roundtrip : ∀ B : List Nat, (∀ b ∈ B, b < 256) →
    b64decodeL (b64encodeL B) = some B := by
  intro B
  induction B using list3_ind with
  | h0 => intro _; rfl
  | h1 a =>
    intro h
    have ha : a < 256 := h a (by simp)
    show b64decodeLoop (b64encodeL [a]) 0 0 0 = some [a]
    rw [show b64encodeL [a] = [enc6 (a / 4), enc6 (a % 4 * 16), '=', '='] from rfl]
    rw [b64decodeLoop_two_pad _ _ (by omega) (by omega)]
    congr 2
    omega
  | h2 a b =>
    intro h
    have ha : a < 256 := h a (by simp)
    have hb : b < 256 := h b (by simp)
    show b64decodeLoop (b64encodeL [a, b]) 0 0 0 = some [a, b]
    rw [show b64encodeL [a, b] =
      [enc6 (a / 4), enc6 (a % 4 * 16 + b / 16), enc6 (b % 16 * 4), '='] from rfl]
    rw [b64decodeLoop_one_pad _ _ _ (by omega) (by omega) (by omega)]
    simp only [Option.some.injEq, List.cons.injEq, and_true]
    exact ⟨by omega, by omega⟩
  | h3 a b c l ih =>
    intro h
    have ha : a < 256 := h a (by simp)
    have hb : b < 256 := h b (by simp)
    have hc : c < 256 := h c (by simp)
    have hl : ∀ x ∈ l, x < 256 := fun x hx => h x (by simp [hx])
    have ih2 : b64decodeLoop (b64encodeL l) 0 0 0 = some l := ih hl
    show b64decodeLoop (b64encodeL (a :: b :: c :: l)) 0 0 0 = some (a :: b :: c :: l)
    rw [show b64encodeL (a :: b :: c :: l) =
      enc6 (a / 4) :: enc6 (a % 4 * 16 + b / 16) :: enc6 (b % 16 * 4 + c / 64) ::
        enc6 (c % 64) :: b64encodeL l from rfl]
    rw [b64decodeLoop_quad _ _ _ _ _ (by omega) (by omega) (by omega) (by omega), ih2]
    simp only [Option.map_some', Option.some.injEq, List.cons.injEq]
    exact ⟨by omega, by omega, by omega, trivial⟩

/-! ## Substring facts (for the wrong-format diagnostic) -/

/-- A list starts with itself followed by anything. -/
theorem startsWithChars_append (p t : List Char) :
    startsWithChars p (p ++ t) = true := by
  induction p with
  | nil => rfl
  | cons c cs ih => simp [startsWithChars, ih]

/-- A prefix occurrence is an occurrence. -/
theorem containsSub_of_startsWith (p l : List Char) (h : startsWithChars p l = true) :
    containsSub p l = true := by
  cases l with
  | nil => exact h
  | cons c cs => simp [containsSub, h]

/-- Occurrences survive extra characters in front. -/
theorem containsSub_cons (p : List Char) (c : Char) (l : List Char)
    (h : containsSub p l = true) : containsSub p (c :: l) = true := by
  simp [containsSub, h]

/-- A pattern occurs in any list embedding it. -/
theorem containsSub_append (p pre suf : List Char) :
    containsSub p (pre ++ (p ++ suf)) = true := by
  induction pre with
  | nil => exact containsSub_of_startsWith p (p ++ suf) (startsWithChars_append p suf)
  | cons c cs ih => exact containsSub_cons p c _ ih

/-- The wrong-format diagnostic embeds the `repr` of the payload verbatim. -/
theorem wrong_format_message_contains_repr (raw : String) :
    containsSub (pyBytesRepr raw).toList (wrong_format_message raw).toList = true := by
  have hsplit : (wrong_format_message raw).toList =
      "The post request.data is not in right format: ".toList ++
        ((pyBytesRepr raw).toList ++ []) := by
    rw [List.append_nil]
    rfl
  rw [hsplit]
  exact containsSub_append _ _ _

/-- A payload character needing no escape is rendered as itself. -/
theorem pyEscapeChar_plain (c : Char)
    (h : 0x20 ≤ c.toNat ∧ c.toNat ≤ 0x7e ∧ ¬c = '\\' ∧ ¬c = sqChar) :
    pyEscapeChar sqChar c = [c] := by
  unfold pyEscapeChar
  rw [if_neg h.2.2.1]
  rw [if_neg (fun he => absurd h.1 (by rw [he]; decide))]
  rw [if_neg (fun he => absurd h.1 (by rw [he]; decide))]
  rw [if_neg (fun he => absurd h.1 (by rw [he]; decide))]
  rw [if_neg h.2.2.2]
  rw [if_pos ⟨h.1, h.2.1⟩]

/-- Escaping is the identity on lists of characters needing no escape. -/
theorem flatMap_escape_plain (l : List Char)
    (h : ∀ c ∈ l, 0x20 ≤ c.toNat ∧ c.toNat ≤ 0x7e ∧ ¬c = '\\' ∧ ¬c = sqChar) :
    l.flatMap (pyEscapeChar sqChar) = l := by
  induction l with
  | nil => rfl
  | cons c cs ih =>
    rw [List.flatMap_cons, pyEscapeChar_plain c (h c (by simp)),
      ih (fun x hx => h x (by simp [hx]))]
    rfl

/-- On payloads needing no escape the `repr` is the raw payload between
`b` and single quotes. -/
theorem pyBytesRepr_plain (raw : String)
    (h : ∀ c ∈ raw.toList, 0x20 ≤ c.toNat ∧ c.toNat ≤ 0x7e ∧ ¬c = '\\' ∧ ¬c = sqChar) :
    pyBytesRepr raw = String.mk ('b' :: sqChar :: (raw.toList ++ [sqChar])) := by
  have h1 : raw.toList.any (fun c => c = sqChar) = false := by
    rw [List.any_eq_false]
    intro c hc
    simp only [decide_eq_true_eq]
    exact (h c hc).2.2.2
  have hq : bytesReprQuote raw.toList = sqChar := by
    unfold bytesReprQuote
    rw [h1]
    rfl
  simp only [pyBytesRepr]
  rw [hq, flatMap_escape_plain raw.toList h]

/-- For payloads needing no escape, the wrong-format diagnostic embeds the
raw payload verbatim. -/
theorem wrong_format_message_contains_plain (raw : String)
    (h : ∀ c ∈ raw.toList, 0x20 ≤ c.toNat ∧ c.toNat ≤ 0x7e ∧ ¬c = '\\' ∧ ¬c = sqChar) :
    containsSub raw.toList (wrong_format_message raw).toList = true := by
  have hsplit : (wrong_format_message raw).toList =
      ("The post request.data is not in right format: ".toList ++ ['b', sqChar]) ++
        (raw.toList ++ [sqChar]) := by
    rw [wrong_format_message, pyBytesRepr_plain raw h, List.append_assoc]
    rfl
  rw [hsplit]
  exact containsSub_append _ _ _

/-! ## Helper facts about the store and the views -/

/-- Writing the same blob twice is the same as writing it once. -/
theorem set_mediafile_idem (db : Store) (i : Int) (media : List Nat) (mt : Json) :
    set_mediafile (set_mediafile db i media mt) i media mt = set_mediafile db i media mt := by
  funext j
  by_cases h : j = i <;> simp [set_mediafile, h]

/-- The write lands at its id. -/
theorem set_mediafile_at (db : Store) (i : Int) (media : List Nat) (mt : Json) :
    set_mediafile db i media mt i = some (media, mt) := by
  simp [set_mediafile]

/-- Truncation is the identity on integers. -/
theorem ratTrunc_intCast (n : Int) : ratTrunc (n : Rat) = n := by
  unfold ratTrunc
  by_cases h : (0 : Rat) ≤ (n : Rat)
  · simp [h, Int.floor_intCast]
  · simp [h, Int.ceil_intCast]

/-- `upload` on a payload passing all three stages: acknowledgment plus write. -/
theorem upload_ok (raw : String) (j : Json) (db : Store) (s : String)
    (media : List Nat) (idv : Json) (i : Int) (mtv : Json)
    (hf : getField j "file" = some (Json.str s))
    (hd : b64decode s = some media)
    (hi : getField j "id" = some idv)
    (hc : pyInt idv = some i)
    (hm : getField j "mimetype" = some mtv) :
    upload raw (some j) db =
      (Except.ok (Json.obj [("success", Json.bool true)], 200),
        set_mediafile db i media mtv) := by
  simp only [upload, hf, hd, hi, hc, hm]

/-- `serve` on an authorized id present in the store. -/
theorem serve_ok (check : Int → Headers → AuthResult) (db : Store) (bs : Nat)
    (id : Int) (hs : Headers) (data : List Nat) (mt : Json)
    (hok : (check id (presenter_headers hs)).ok = true)
    (hdb : get_mediafile db id = some (data, mt)) :
    serve check db bs id hs =
      (Except.ok
        { chunks := chunked bs data
          mimetype := mt
          content_disposition :=
            "inline; filename=\"" ++ (check id (presenter_headers hs)).filename ++ "\""
          auth_header :=
            match (check id (presenter_headers hs)).auth_header with
            | some s => if s = "" then none else some s
            | none => none },
        db) := by
  simp only [serve, hok, hdb, if_pos]

/-! ## Claim theorems -/

/-- **C2.** For every byte sequence (including empty and non-multiple lengths)
and every positive chunk size, `chunked` emits a finite list of chunks, each
of at most the chunk size, whose in-order concatenation is exactly the
original sequence. -/
theorem chunked_lossless (size : Nat) (source : List Nat) (h : 0 < size) :
    (∀ c ∈ chunked size source, c.length ≤ size) ∧
    (chunked size source).flatten = source :=
  ⟨chunked_length_le size source, chunked_flatten size h source⟩

/-- Witness for `chunked_lossless` at size 2 on `[1, 2, 3]`. -/
theorem chunked_lossless_witness :
    0 < 2 ∧ ((∀ c ∈ chunked 2 [1, 2, 3], c.length ≤ 2) ∧
      (chunked 2 [1, 2, 3]).flatten = [1, 2, 3]) :=
  ⟨by decide, chunked_lossless 2 [1, 2, 3] (by decide)⟩

/-- The SPEC's notion of a content header (spec §3, "ForwardedHeaders"): the
name contains `"content"` as a case-insensitive substring.  Stated from the
spec's words, for comparison with the code's case-sensitive test. -/
def spec_contains_content_ci (k : String) : Bool :=
  containsSub contentChars (k.toList.map Char.toLower)

/-- **C1 (counterexample).** `"Content-Type"` contains `"content"`
case-insensitively, yet the code's filter (a case-sensitive Python `in`)
forwards it to the delegate untouched: the claimed case-insensitive
restriction is false on this input. -/
theorem presenter_headers_not_case_insensitive :
    spec_contains_content_ci "Content-Type" = true ∧
    presenter_headers [("Content-Type", "text/html")] =
      [("Content-Type", "text/html")] := by
  constructor
  · rfl
  · rfl

/-- **C1 (amended).** For any input header set, the set passed to the
authorization delegate equals the input restricted to names not containing
the exact lower-case substring `"content"`: every header whose name contains
`"content"` verbatim is deleted, all other headers (including ones containing
`"Content"` in other capitalizations) pass through unchanged. -/
theorem presenter_headers_filters_exact_content (headers : Headers) :
    presenter_headers headers =
      headers.filter (fun kv => !containsSub contentChars kv.1.toList) :=
  presenter_headers_eq_filter headers

/-- **C9.** Retrieval never modifies the blob store: whatever the identifier,
headers, delegate outcome, and store state, the store after `serve` is the
store before it. -/
theorem serve_read_only (check : Int → Headers → AuthResult) (db : Store)
    (bs : Nat) (id : Int) (hs : Headers) :
    (serve check db bs id hs).2 = db := by
  simp only [serve]
  split
  · split <;> rfl
  · rfl

/-- **C3.** If the delegate denies, or the delegate allows but the store has
no blob for the id, `serve` fails with the not-found kind, and that single
kind renders as the one 404 envelope — the two failure cases are literally
the same value, indistinguishable to the caller. -/
theorem serve_denied_or_absent_not_found (check : Int → Headers → AuthResult)
    (db : Store) (bs : Nat) (id : Int) (hs : Headers)
    (h : (check id (presenter_headers hs)).ok = false ∨ get_mediafile db id = none) :
    (serve check db bs id hs).1 = Except.error Err.notFound ∧
    handle_view_error Err.notFound =
      { body := Json.obj [("success", Json.bool false),
          ("message", Json.str (Err.message Err.notFound))],
        status_code := 404 } := by
  refine ⟨?_, rfl⟩
  rcases h with h | h
  · simp [serve, h]
  · by_cases hok : (check id (presenter_headers hs)).ok = true
    · simp [serve, hok, h]
    · simp [serve, hok]

/-- Witness for `serve_denied_or_absent_not_found`: a denying delegate. -/
theorem serve_denied_or_absent_not_found_witness :
    (((fun (_ : Int) (_ : Headers) => AuthResult.mk false "x" none) 5
        (presenter_headers [])).ok = false ∨
      get_mediafile (fun _ => none) 5 = none) ∧
    ((serve (fun _ _ => AuthResult.mk false "x" none) (fun _ => none) 4 5 []).1 =
        Except.error Err.notFound ∧
      handle_view_error Err.notFound =
        { body := Json.obj [("success", Json.bool false),
            ("message", Json.str (Err.message Err.notFound))],
          status_code := 404 }) :=
  ⟨Or.inl rfl,
    serve_denied_or_absent_not_found (fun _ _ => AuthResult.mk false "x" none)
      (fun _ => none) 4 5 [] (Or.inl rfl)⟩

/-- **C8.** Every typed failure is rendered as the uniform envelope
`{"success": false, "message": <message>}` with the status code of its kind:
404 for not-found, 400 for every bad-request. -/
theorem error_envelope_uniform (e : Err) :
    handle_view_error e =
      { body := Json.obj [("success", Json.bool false),
          ("message", Json.str e.message)],
        status_code := e.status_code } ∧
    Err.notFound.status_code = 404 ∧
    ∀ m, (Err.badRequest m).status_code = 400 :=
  ⟨rfl, rfl, fun _ => rfl⟩

/-- **C7 (counterexample).** `if auth_header:` is Python truthiness, so a
delegate outcome carrying the empty-string credential is a successful
retrieval on which the credential-forwarding header is NOT set: "whenever the
delegate returned a forwarded credential" fails at `some ""`. -/
theorem serve_drops_empty_credential :
    (AuthResult.mk true "f" (some "")).auth_header = some "" ∧
    (serve (fun _ _ => AuthResult.mk true "f" (some ""))
        (fun _ => some ([], Json.str "text/plain")) 1 0 []).1 =
      Except.ok
        { chunks := chunked 1 []
          mimetype := Json.str "text/plain"
          content_disposition := "inline; filename=\"f\""
          auth_header := none } :=
  ⟨rfl, rfl⟩

/-- **C7 (amended).** On every successful retrieval the response carries the
stored mimetype as content type, `Content-Disposition: inline;
filename="<delegate filename>"`, and, whenever the delegate returned a
non-empty forwarded credential, the credential-forwarding header set to that
credential (an empty-string credential is treated as absent, per Python
truthiness). -/
theorem serve_success_headers (check : Int → Headers → AuthResult) (db : Store)
    (bs : Nat) (id : Int) (hs : Headers) (data : List Nat) (mt : Json)
    (hok : (check id (presenter_headers hs)).ok = true)
    (hdb : get_mediafile db id = some (data, mt)) :
    ∃ resp, (serve check db bs id hs).1 = Except.ok resp ∧
      resp.mimetype = mt ∧
      resp.content_disposition =
        "inline; filename=\"" ++ (check id (presenter_headers hs)).filename ++ "\"" ∧
      (∀ c, (check id (presenter_headers hs)).auth_header = some c → ¬c = "" →
        resp.auth_header = some c) := by
  refine ⟨_, congrArg Prod.fst (serve_ok check db bs id hs data mt hok hdb), rfl, rfl, ?_⟩
  intro c hc hne
  rw [hc]
  simp [hne]

/-- Witness for `serve_success_headers`: an allowing delegate returning
credential `"tok"`, a store holding a png blob at id 7. -/
theorem serve_success_headers_witness :
    ((fun (_ : Int) (_ : Headers) => AuthResult.mk true "f" (some "tok")) 7
        (presenter_headers [("Host", "h")])).ok = true ∧
    get_mediafile (fun _ => some ([9, 8], Json.str "image/png")) 7 =
      some ([9, 8], Json.str "image/png") ∧
    ∃ resp,
      (serve (fun _ _ => AuthResult.mk true "f" (some "tok"))
          (fun _ => some ([9, 8], Json.str "image/png")) 3 7 [("Host", "h")]).1 =
        Except.ok resp ∧
      resp.mimetype = Json.str "image/png" ∧
      resp.content_disposition =
        "inline; filename=\"" ++
          ((fun (_ : Int) (_ : Headers) => AuthResult.mk true "f" (some "tok")) 7
            (presenter_headers [("Host", "h")])).filename ++ "\"" ∧
      (∀ c,
        ((fun (_ : Int) (_ : Headers) => AuthResult.mk true "f" (some "tok")) 7
            (presenter_headers [("Host", "h")])).auth_header = some c → ¬c = "" →
        resp.auth_header = some c) :=
  ⟨rfl, rfl,
    serve_success_headers (fun _ _ => AuthResult.mk true "f" (some "tok"))
      (fun _ => some ([9, 8], Json.str "image/png")) 3 7 [("Host", "h")]
      [9, 8] (Json.str "image/png") rfl rfl⟩

/-- **C4 (counterexample).** A well-formed JSON payload containing a newline
and missing `id` fails with the wrong-format reason, but the message embeds
the bytes `repr` of the payload (the newline rendered as a backslash escape),
so the raw request payload is NOT a substring of the message: the claimed
payload-containment fails at this input. -/
theorem upload_wrong_format_escapes_newline :
    getField (Json.obj [("file", Json.str "AQID")]) "id" = none ∧
    (upload "\x7b\"file\": \"AQID\"\n\x7d"
        (some (Json.obj [("file", Json.str "AQID")])) (fun _ => none)).1 =
      Except.error (Err.badRequest
        (wrong_format_message "\x7b\"file\": \"AQID\"\n\x7d")) ∧
    containsSub "\x7b\"file\": \"AQID\"\n\x7d".toList
      (wrong_format_message "\x7b\"file\": \"AQID\"\n\x7d").toList = false :=
  ⟨rfl, rfl, by decide⟩

/-- **C4 (amended).** The upload pipeline fails in three ordered stages with
distinct bad-request errors: a body that does not parse as JSON fails at
stage 1; a parsed payload whose `file` field is a string that is not valid
base64 (under Python's lenient decoder) fails with "cannot decode base64
file"; once the file decodes, a missing `id`, an `id` that does not coerce to
an integer (within the modelled ASCII domain), or a missing `mimetype` fails
at status 400 with the wrong-format reason, whose message embeds the bytes
`repr` of the raw request payload — and hence the raw payload verbatim
whenever no character of it needs escaping; the three stage messages are
pairwise distinct. -/
theorem upload_validation_stages :
    (∀ raw db, (upload raw none db).1 =
      Except.error (Err.badRequest "request.data is not json")) ∧
    (∀ raw db j s, getField j "file" = some (Json.str s) → b64decode s = none →
      (upload raw (some j) db).1 =
        Except.error (Err.badRequest "cannot decode base64 file")) ∧
    (∀ raw db j s media, getField j "file" = some (Json.str s) →
      b64decode s = some media →
      (getField j "id" = none ∨
        (∃ v, getField j "id" = some v ∧ pyInt v = none ∧ pyIntModelled v = true) ∨
        (∃ v i, getField j "id" = some v ∧ pyInt v = some i ∧
          getField j "mimetype" = none)) →
      (upload raw (some j) db).1 =
        Except.error (Err.badRequest (wrong_format_message raw)) ∧
      containsSub (pyBytesRepr raw).toList (wrong_format_message raw).toList = true ∧
      ((∀ c ∈ raw.toList, 0x20 ≤ c.toNat ∧ c.toNat ≤ 0x7e ∧ ¬c = '\\' ∧ ¬c = sqChar) →
        containsSub raw.toList (wrong_format_message raw).toList = true) ∧
      (Err.badRequest (wrong_format_message raw)).status_code = 400) ∧
    (∀ raw, ¬wrong_format_message raw = "request.data is not json" ∧
      ¬wrong_format_message raw = "cannot decode base64 file" ∧
      ¬("request.data is not json" : String) = "cannot decode base64 file") := by
  refine ⟨fun raw db => rfl, ?_, ?_, ?_⟩
  · intro raw db j s hf hd
    simp only [upload, hf, hd]
  · intro raw db j s media hf hd hbad
    refine ⟨?_, wrong_format_message_contains_repr raw,
      wrong_format_message_contains_plain raw, rfl⟩
    rcases hbad with h | ⟨v, hv, hc, _⟩ | ⟨v, i, hv, hc, hm⟩
    · simp only [upload, hf, hd, h]
    · simp only [upload, hf, hd, hv, hc]
    · simp only [upload, hf, hd, hv, hc, hm]
  · intro raw
    refine ⟨?_, ?_, by decide⟩
    · intro h
      have h3 : (some 'T' : Option Char) = some 'r' :=
        congrArg (fun s => s.toList.head?) h
      simp at h3
    · intro h
      have h3 : (some 'T' : Option Char) = some 'c' :=
        congrArg (fun s => s.toList.head?) h
      simp at h3

/-- Witness for `upload_validation_stages`: a payload with a non-base64 file
field, and a payload with a decodable file but no `id`, whose escape-free
raw body appears verbatim in the diagnostic. -/
theorem upload_validation_stages_witness :
    (upload "nope" none (fun _ => none)).1 =
      Except.error (Err.badRequest "request.data is not json") ∧
    (getField (Json.obj [("file", Json.str "a")]) "file" = some (Json.str "a") ∧
      b64decode "a" = none ∧
      (upload "x" (some (Json.obj [("file", Json.str "a")])) (fun _ => none)).1 =
        Except.error (Err.badRequest "cannot decode base64 file")) ∧
    (getField (Json.obj [("file", Json.str "AQID")]) "file" =
        some (Json.str "AQID") ∧
      b64decode "AQID" = some [1, 2, 3] ∧
      getField (Json.obj [("file", Json.str "AQID")]) "id" = none ∧
      (upload "y" (some (Json.obj [("file", Json.str "AQID")])) (fun _ => none)).1 =
        Except.error (Err.badRequest (wrong_format_message "y")) ∧
      containsSub "y".toList (wrong_format_message "y").toList = true) :=
  ⟨upload_validation_stages.1 "nope" (fun _ => none),
    ⟨rfl, rfl,
      upload_validation_stages.2.1 "x" (fun _ => none)
        (Json.obj [("file", Json.str "a")]) "a" rfl rfl⟩,
    ⟨rfl, rfl, rfl,
      (upload_validation_stages.2.2.1 "y" (fun _ => none)
        (Json.obj [("file", Json.str "AQID")]) "AQID" [1, 2, 3] rfl rfl
        (Or.inl rfl)).1,
      (upload_validation_stages.2.2.1 "y" (fun _ => none)
        (Json.obj [("file", Json.str "AQID")]) "AQID" [1, 2, 3] rfl rfl
        (Or.inl rfl)).2.2.1 (by decide)⟩⟩

/-- **C5.** Upload/retrieval round-trip: uploading
`{id, mimetype, file: base64(B)}` succeeds, and a subsequent retrieval of the
same id on the updated store, with the delegate granting access and a
positive block size, returns chunks concatenating exactly to `B` with content
type the uploaded mimetype. -/
theorem upload_retrieve_roundtrip (B : List Nat) (idn : Int) (m : String)
    (raw : String) (db : Store) (check : Int → Headers → AuthResult)
    (bs : Nat) (hs : Headers)
    (hB : ∀ b ∈ B, b < 256) (hbs : 0 < bs)
    (hok : (check idn (presenter_headers hs)).ok = true) :
    (upload raw (some (Json.obj [("id", Json.num (idn : Rat)),
        ("mimetype", Json.str m), ("file", Json.str (b64encode B))])) db).1 =
      Except.ok (Json.obj [("success", Json.bool true)], 200) ∧
    ∃ resp,
      (serve check
          (upload raw (some (Json.obj [("id", Json.num (idn : Rat)),
            ("mimetype", Json.str m), ("file", Json.str (b64encode B))])) db).2
          bs idn hs).1 = Except.ok resp ∧
      resp.chunks.flatten = B ∧ resp.mimetype = Json.str m := by
  have hc : pyInt (Json.num (idn : Rat)) = some idn := by
    rw [show pyInt (Json.num (idn : Rat)) = some (ratTrunc (idn : Rat)) from rfl,
      ratTrunc_intCast]
  have hup := upload_ok raw
    (Json.obj [("id", Json.num (idn : Rat)), ("mimetype", Json.str m),
      ("file", Json.str (b64encode B))])
    db (b64encode B) B (Json.num (idn : Rat)) idn (Json.str m)
    rfl (b64_roundtrip B hB) rfl hc rfl
  constructor
  · rw [hup]
  · have hdb2 : (upload raw (some (Json.obj [("id", Json.num (idn : Rat)),
        ("mimetype", Json.str m), ("file", Json.str (b64encode B))])) db).2 =
        set_mediafile db idn B (Json.str m) := congrArg Prod.snd hup
    have hserve := serve_ok check (set_mediafile db idn B (Json.str m)) bs idn hs
      B (Json.str m) hok (set_mediafile_at db idn B (Json.str m))
    refine ⟨{ chunks := chunked bs B
              mimetype := Json.str m
              content_disposition :=
                "inline; filename=\"" ++
                  (check idn (presenter_headers hs)).filename ++ "\""
              auth_header :=
                match (check idn (presenter_headers hs)).auth_header with
                | some s => if s = "" then none else some s
                | none => none },
      ?_, chunked_flatten bs hbs B, rfl⟩
    rw [hdb2]
    exact congrArg Prod.fst hserve

/-- Witness for `upload_retrieve_roundtrip`: bytes `[1, 2, 3]` at id 42 with
mimetype `image/png`, block size 2. -/
theorem upload_retrieve_roundtrip_witness :
    (∀ b ∈ [1, 2, 3], b < 256) ∧ 0 < 2 ∧
    ((fun (_ : Int) (_ : Headers) => AuthResult.mk true "f" none) 42
      (presenter_headers [])).ok = true ∧
    ((upload "r" (some (Json.obj [("id", Json.num ((42 : Int) : Rat)),
        ("mimetype", Json.str "image/png"),
        ("file", Json.str (b64encode [1, 2, 3]))])) (fun _ => none)).1 =
      Except.ok (Json.obj [("success", Json.bool true)], 200) ∧
    ∃ resp,
      (serve (fun _ _ => AuthResult.mk true "f" none)
          (upload "r" (some (Json.obj [("id", Json.num ((42 : Int) : Rat)),
            ("mimetype", Json.str "image/png"),
            ("file", Json.str (b64encode [1, 2, 3]))])) (fun _ => none)).2
          2 42 []).1 = Except.ok resp ∧
      resp.chunks.flatten = [1, 2, 3] ∧ resp.mimetype = Json.str "image/png") :=
  ⟨by decide, by decide, rfl,
    upload_retrieve_roundtrip [1, 2, 3] 42 "image/png" "r" (fun _ => none)
      (fun _ _ => AuthResult.mk true "f" none) 2 [] (by decide) (by decide) rfl⟩

/-- **C6.** Upload is idempotent for identical data: for every valid payload
and every `N ≥ 1`, the store after `N` successive identical uploads equals
the store after one, and the write lands at (overwrites) the payload's id
whatever the store held there before. -/
theorem upload_idempotent (raw : String) (j : Json) (db : Store) (s : String)
    (media : List Nat) (idv : Json) (i : Int) (mtv : Json)
    (hf : getField j "file" = some (Json.str s))
    (hd : b64decode s = some media)
    (hi : getField j "id" = some idv)
    (hc : pyInt idv = some i)
    (hm : getField j "mimetype" = some mtv) :
    (∀ N, 1 ≤ N →
      (fun d => (upload raw (some j) d).2)^[N] db = (upload raw (some j) db).2) ∧
    (upload raw (some j) db).2 i = some (media, mtv) := by
  have hstep : ∀ d : Store, (upload raw (some j) d).2 = set_mediafile d i media mtv :=
    fun d => congrArg Prod.snd (upload_ok raw j d s media idv i mtv hf hd hi hc hm)
  constructor
  · intro N hN
    induction N with
    | zero => omega
    | succ n ih =>
      match n, ih with
      | 0, _ => simp
      | Nat.succ m, ih =>
        rw [Function.iterate_succ_apply', ih (by omega)]
        show (upload raw (some j) ((upload raw (some j) db).2)).2 = _
        rw [hstep, hstep, set_mediafile_idem]
  · rw [hstep]
    exact set_mediafile_at db i media mtv

/-- Witness for `upload_idempotent`: two identical uploads of bytes
`[1, 2, 3]` at id 6 equal one. -/
theorem upload_idempotent_witness :
    getField (Json.obj [("id", Json.str "6"), ("mimetype", Json.str "t"),
        ("file", Json.str "AQID")]) "file" = some (Json.str "AQID") ∧
    b64decode "AQID" = some [1, 2, 3] ∧
    getField (Json.obj [("id", Json.str "6"), ("mimetype", Json.str "t"),
        ("file", Json.str "AQID")]) "id" = some (Json.str "6") ∧
    pyInt (Json.str "6") = some 6 ∧
    getField (Json.obj [("id", Json.str "6"), ("mimetype", Json.str "t"),
        ("file", Json.str "AQID")]) "mimetype" = some (Json.str "t") ∧
    1 ≤ 2 ∧
    (fun d => (upload "u" (some (Json.obj [("id", Json.str "6"),
        ("mimetype", Json.str "t"), ("file", Json.str "AQID")])) d).2)^[2]
        (fun _ => none) =
      (upload "u" (some (Json.obj [("id", Json.str "6"),
        ("mimetype", Json.str "t"), ("file", Json.str "AQID")]))
        (fun _ => none)).2 ∧
    (upload "u" (some (Json.obj [("id", Json.str "6"), ("mimetype", Json.str "t"),
        ("file", Json.str "AQID")])) (fun _ => none)).2 6 =
      some ([1, 2, 3], Json.str "t") :=
  ⟨rfl, rfl, rfl, by decide, rfl, by decide,
    (upload_idempotent "u" (Json.obj [("id", Json.str "6"),
        ("mimetype", Json.str "t"), ("file", Json.str "AQID")])
      (fun _ => none) "AQID" [1, 2, 3] (Json.str "6") 6 (Json.str "t")
      rfl rfl rfl (by decide) rfl).1 2 (by decide),
    (upload_idempotent "u" (Json.obj [("id", Json.str "6"),
        ("mimetype", Json.str "t"), ("file", Json.str "AQID")])
      (fun _ => none) "AQID" [1, 2, 3] (Json.str "6") 6 (Json.str "t")
      rfl rfl rfl (by decide) rfl).2⟩

/-- **C10.** Upload enforces neither non-negativity nor strict integer typing
of the identifier: any payload whose `id` coerces to an integer under
Python's `int(...)` — negative numbers, numeric strings such as `"-5"`,
floats truncated toward zero — uploads successfully and stores the blob under
the coerced integer id. -/
theorem upload_accepts_coerced_ids (raw : String) (j : Json) (db : Store)
    (s : String) (media : List Nat) (idv : Json) (i : Int) (mtv : Json)
    (hf : getField j "file" = some (Json.str s))
    (hd : b64decode s = some media)
    (hi : getField j "id" = some idv)
    (hc : pyInt idv = some i)
    (hm : getField j "mimetype" = some mtv) :
    (upload raw (some j) db).1 =
      Except.ok (Json.obj [("success", Json.bool true)], 200) ∧
    (upload raw (some j) db).2 i = some (media, mtv) ∧
    pyInt (Json.str "-5") = some (-5) ∧
    pyInt (Json.num (37 / 10 : Rat)) = some 3 ∧
    pyInt (Json.num (-(37 / 10) : Rat)) = some (-3) := by
  have hup := upload_ok raw j db s media idv i mtv hf hd hi hc hm
  refine ⟨by rw [hup], ?_, by decide, ?_, ?_⟩
  · rw [congrArg Prod.snd hup]
    exact set_mediafile_at db i media mtv
  · rw [show pyInt (Json.num (37 / 10 : Rat)) =
      some (ratTrunc (37 / 10 : Rat)) from rfl]
    rw [ratTrunc, if_pos (by norm_num)]
    norm_num [Int.floor_eq_iff]
  · rw [show pyInt (Json.num (-(37 / 10) : Rat)) =
      some (ratTrunc (-(37 / 10) : Rat)) from rfl]
    rw [ratTrunc, if_neg (by norm_num)]
    norm_num [Int.ceil_eq_iff]

/-- Witness for `upload_accepts_coerced_ids`: an upload whose `id` is the
numeric string `"-5"` lands at id `-5`. -/
theorem upload_accepts_coerced_ids_witness :
    getField (Json.obj [("id", Json.str "-5"), ("mimetype", Json.str "t"),
        ("file", Json.str "AQID")]) "file" = some (Json.str "AQID") ∧
    b64decode "AQID" = some [1, 2, 3] ∧
    getField (Json.obj [("id", Json.str "-5"), ("mimetype", Json.str "t"),
        ("file", Json.str "AQID")]) "id" = some (Json.str "-5") ∧
    pyInt (Json.str "-5") = some (-5) ∧
    getField (Json.obj [("id", Json.str "-5"), ("mimetype", Json.str "t"),
        ("file", Json.str "AQID")]) "mimetype" = some (Json.str "t") ∧
    (upload "w" (some (Json.obj [("id", Json.str "-5"), ("mimetype", Json.str "t"),
        ("file", Json.str "AQID")])) (fun _ => none)).1 =
      Except.ok (Json.obj [("success", Json.bool true)], 200) ∧
    (upload "w" (some (Json.obj [("id", Json.str "-5"), ("mimetype", Json.str "t"),
        ("file", Json.str "AQID")])) (fun _ => none)).2 (-5) =
      some ([1, 2, 3], Json.str "t") :=
  ⟨rfl, rfl, rfl, by decide, rfl,
    (upload_accepts_coerced_ids "w" (Json.obj [("id", Json.str "-5"),
        ("mimetype", Json.str "t"), ("file", Json.str "AQID")])
      (fun _ => none) "AQID" [1, 2, 3] (Json.str "-5") (-5) (Json.str "t")
      rfl rfl rfl (by decide) rfl).1,
    (upload_accepts_coerced_ids "w" (Json.obj [("id", Json.str "-5"),
        ("mimetype", Json.str "t"), ("file", Json.str "AQID")])
      (fun _ => none) "AQID" [1, 2, 3] (Json.str "-5") (-5) (Json.str "t")
      rfl rfl rfl (by decide) rfl).2.1⟩
